import Mathlib

/-!
Shallow embedding of `src/db.py` (per-user persistence layer over a single
`users` table) and verification of the specification claims about it.

Modelling conventions:
* Python values that can flow through `normalize_json_field` / `json.loads`
  are modelled by the inductive type `PyObj` (`None`, `bool`, `int`, `str`,
  `list`, `dict`).  JSON numbers are modelled as integers only; the source
  never stores non-integer numbers in the fields under specification.
* `json.loads` is modelled by `json_loads` (a total, fuel-indexed
  recursive-descent parser returning `Option PyObj`; `Option.none` models the
  `json.JSONDecodeError` that the source catches), `json.dumps` by
  `json_dumps` (with Python's default `", "` / `": "` separators).
* The SQLite `users` table is modelled as an association list
  `DB = List (Int × UserRow)` from primary key `id` to the remaining stored
  columns.  `serp_key : Option String` models the nullable `TEXT UNIQUE`
  column; `custom_urls : String` models the serialized `TEXT` column.
* `datetime.now().strftime(<DD-MM-YYYY>)` is passed in as an explicit `now`
  argument to the operations that call it.
* A raised `sqlite3.IntegrityError` whose message matches `"unique"` is the
  only exception a modelled operation can produce; `set_serp_key` converts it
  to `false` (as the source's `except` does), while `update_user` lets it
  escape, modelled by `Except String` (the error string being the SQLite
  message).  An uncommitted connection rolls back, so an erroring operation
  leaves the table unchanged.
-/

set_option maxHeartbeats 1000000

/-- Python runtime values relevant to `db.py`: the possible inputs and
outputs of `normalize_json_field` and `json.loads`/`json.dumps`. -/
inductive PyObj where
  | none
  | bool (b : Bool)
  | int (n : Int)
  | str (s : String)
  | list (xs : List PyObj)
  | dict (kvs : List (String × PyObj))

/-- Is `c` one of the whitespace characters JSON allows between tokens? -/
def isJsonWs (c : Char) : Bool :=
  c = ' ' || c = '\t' || c = '\n' || c = '\r'

/-- Strip leading JSON whitespace from the input. -/
def dropSpace : List Char → List Char
  | [] => []
  | c :: cs => if isJsonWs c then dropSpace cs else c :: cs

/-- Strip an expected literal keyword (given as its characters) from the
input, failing unless it is present verbatim. -/
def dropLit : List Char → List Char → Option (List Char)
  | [], cs => some cs
  | k :: ks, c :: cs => if c = k then dropLit ks cs else Option.none
  | _ :: _, [] => Option.none

/-- Decimal digit value of a character, if it is a digit. -/
def digitVal (c : Char) : Option Nat :=
  if '0' ≤ c ∧ c ≤ '9' then some (c.toNat - '0'.toNat) else Option.none

/-- Consume as many digits as possible, accumulating their value. -/
def parseDigitsAux : List Char → Nat → (Nat × List Char)
  | c :: cs, acc =>
    match digitVal c with
    | some d => parseDigitsAux cs (acc * 10 + d)
    | Option.none => (acc, c :: cs)
  | [], acc => (acc, [])

/-- Parse a JSON unsigned integer (a single `0`, or a nonzero digit followed
by digits; JSON forbids leading zeros). -/
def parseUIntCore : List Char → Option (Nat × List Char)
  | '0' :: rest =>
    match rest with
    | c :: _ => if (digitVal c).isSome then Option.none else some (0, rest)
    | [] => some (0, [])
  | c :: rest =>
    match digitVal c with
    | some d => some (parseDigitsAux rest d)
    | Option.none => Option.none
  | [] => Option.none

/-- Parse a JSON integer with optional leading minus sign. -/
def parseIntCore (cs : List Char) : Option (Int × List Char) :=
  match cs with
  | '-' :: rest => (parseUIntCore rest).map (fun p => (-(p.1 : Int), p.2))
  | _ => (parseUIntCore cs).map (fun p => ((p.1 : Int), p.2))

/-- Parse a JSON number.  Fractional and exponent parts (floats) are outside
the model: a following `.`/`e`/`E` makes the parse fail. -/
def parseNum (cs : List Char) : Option (PyObj × List Char) :=
  match parseIntCore cs with
  | some (n, rest) =>
    match rest with
    | c :: _ => if c = '.' ∨ c = 'e' ∨ c = 'E' then Option.none else some (PyObj.int n, rest)
    | [] => some (PyObj.int n, [])
  | Option.none => Option.none

/-- Translate a JSON string escape character.  `\uXXXX` escapes are outside
the model (the source never stores them). -/
def escChar (e : Char) : Option Char :=
  if e = '"' ∨ e = '\\' ∨ e = '/' then some e
  else if e = 'n' then some (Char.ofNat 10)
  else if e = 't' then some (Char.ofNat 9)
  else if e = 'r' then some (Char.ofNat 13)
  else if e = 'b' then some (Char.ofNat 8)
  else if e = 'f' then some (Char.ofNat 12)
  else Option.none

/-- Parse the body of a JSON string after the opening quote, up to and
including the closing quote. -/
def strBody : Nat → List Char → Option (List Char × List Char)
  | 0, _ => Option.none
  | fuel + 1, cs =>
    match cs with
    | '"' :: rest => some ([], rest)
    | '\\' :: e :: rest =>
      match escChar e with
      | some c => (strBody fuel rest).map (fun p => (c :: p.1, p.2))
      | Option.none => Option.none
    | c :: rest => (strBody fuel rest).map (fun p => (c :: p.1, p.2))
    | [] => Option.none

mutual

/-- Fuel-indexed recursive-descent parser for one JSON value. -/
def jsonVal : Nat → List Char → Option (PyObj × List Char)
  | 0, _ => Option.none
  | fuel + 1, input =>
    match dropSpace input with
    | [] => Option.none
    | c :: cs =>
      if c = 'n' then
        (dropLit ['u', 'l', 'l'] cs).map (fun rest => (PyObj.none, rest))
      else if c = 't' then
        (dropLit ['r', 'u', 'e'] cs).map (fun rest => (PyObj.bool true, rest))
      else if c = 'f' then
        (dropLit ['a', 'l', 's', 'e'] cs).map (fun rest => (PyObj.bool false, rest))
      else if c = '"' then
        (strBody (cs.length + 1) cs).map (fun p => (PyObj.str (String.mk p.1), p.2))
      else if c = '[' then
        match dropSpace cs with
        | ']' :: rest => some (PyObj.list [], rest)
        | cs1 =>
          match jsonVal fuel cs1 with
          | some (v, cs2) =>
            match jsonArrRest fuel cs2 with
            | some (vs, cs3) => some (PyObj.list (v :: vs), cs3)
            | Option.none => Option.none
          | Option.none => Option.none
      else if c = '\x7b' then
        match dropSpace cs with
        | '\x7d' :: rest => some (PyObj.dict [], rest)
        | cs1 =>
          match jsonPair fuel cs1 with
          | some (kv, cs2) =>
            match jsonObjRest fuel cs2 with
            | some (kvs, cs3) => some (PyObj.dict (kv :: kvs), cs3)
            | Option.none => Option.none
          | Option.none => Option.none
      else parseNum (c :: cs)

/-- Parse what follows the first element of a JSON array: zero or more
`, value` groups, then the closing bracket. -/
def jsonArrRest : Nat → List Char → Option (List PyObj × List Char)
  | 0, _ => Option.none
  | fuel + 1, input =>
    match dropSpace input with
    | ']' :: rest => some ([], rest)
    | ',' :: rest =>
      (match jsonVal fuel rest with
       | some (v, cs2) =>
         match jsonArrRest fuel cs2 with
         | some (vs, cs3) => some (v :: vs, cs3)
         | Option.none => Option.none
       | Option.none => Option.none)
    | _ => Option.none

/-- Parse one `"key": value` member of a JSON object. -/
def jsonPair : Nat → List Char → Option ((String × PyObj) × List Char)
  | 0, _ => Option.none
  | fuel + 1, input =>
    match dropSpace input with
    | '"' :: cs =>
      (match strBody (cs.length + 1) cs with
       | some (kchars, cs2) =>
         match dropSpace cs2 with
         | ':' :: cs3 =>
           (match jsonVal fuel cs3 with
            | some (v, cs4) => some ((String.mk kchars, v), cs4)
            | Option.none => Option.none)
         | _ => Option.none
       | Option.none => Option.none)
    | _ => Option.none

/-- Parse what follows the first member of a JSON object: zero or more
`, "key": value` groups, then the closing brace. -/
def jsonObjRest : Nat → List Char → Option (List (String × PyObj) × List Char)
  | 0, _ => Option.none
  | fuel + 1, input =>
    match dropSpace input with
    | '\x7d' :: rest => some ([], rest)
    | ',' :: rest =>
      (match jsonPair fuel rest with
       | some (kv, cs2) =>
         match jsonObjRest fuel cs2 with
         | some (kvs, cs3) => some (kv :: kvs, cs3)
         | Option.none => Option.none
       | Option.none => Option.none)
    | _ => Option.none

end

/-- Model of Python `json.loads`: parse one JSON value and require the rest
of the input to be whitespace; `Option.none` models `json.JSONDecodeError`. -/
def json_loads (s : String) : Option PyObj :=
  match jsonVal (s.length + 1) s.toList with
  | some (v, rest) => if dropSpace rest = [] then some v else Option.none
  | Option.none => Option.none

/-- Escape the characters of a string for JSON output. -/
def escapeStringChars : List Char → List Char
  | [] => []
  | c :: cs =>
    if c = '"' then '\\' :: '"' :: escapeStringChars cs
    else if c = '\\' then '\\' :: '\\' :: escapeStringChars cs
    else if c = '\n' then '\\' :: 'n' :: escapeStringChars cs
    else if c = '\t' then '\\' :: 't' :: escapeStringChars cs
    else if c = '\r' then '\\' :: 'r' :: escapeStringChars cs
    else c :: escapeStringChars cs

mutual

/-- Model of Python `json.dumps` (default separators: `", "` and `": "`). -/
def json_dumps : PyObj → String
  | PyObj.none => "null"
  | PyObj.bool true => "true"
  | PyObj.bool false => "false"
  | PyObj.int n => toString n
  | PyObj.str s => "\"" ++ String.mk (escapeStringChars s.toList) ++ "\""
  | PyObj.list xs => "[" ++ dumpsList xs ++ "]"
  | PyObj.dict kvs => "\x7b" ++ dumpsDict kvs ++ "\x7d"

/-- Comma-separated serialization of JSON array elements. -/
def dumpsList : List PyObj → String
  | [] => ""
  | [x] => json_dumps x
  | x :: xs => json_dumps x ++ ", " ++ dumpsList xs

/-- Comma-separated serialization of JSON object members. -/
def dumpsDict : List (String × PyObj) → String
  | [] => ""
  | [(k, v)] => "\"" ++ String.mk (escapeStringChars k.toList) ++ "\": " ++ json_dumps v
  | (k, v) :: xs =>
    "\"" ++ String.mk (escapeStringChars k.toList) ++ "\": " ++ json_dumps v ++ ", " ++
      dumpsDict xs

end

/-- `normalize_json_field` from `src/db.py`:
`None -> []`; a `str` is fed to `json.loads` with any failure mapped to `[]`
(and a successful parse returned as-is, whatever its shape); a `list` is
returned unchanged; anything else maps to `[]`. -/
def normalize_json_field (value : PyObj) : PyObj :=
  match value with
  | PyObj.none => PyObj.list []
  | PyObj.str s =>
    match json_loads s with
    | some v => v
    | Option.none => PyObj.list []
  | PyObj.list xs => PyObj.list xs
  | _ => PyObj.list []

example : json_loads "5" = some (PyObj.int 5) := rfl
example : json_loads "not json" = Option.none := rfl
example : json_loads "null" = some PyObj.none := rfl
example : json_loads "[\"a\", \"b\"]" = some (PyObj.list [PyObj.str "a", PyObj.str "b"]) := rfl
example : json_loads "" = Option.none := rfl
example : json_loads "[1, 2" = Option.none := rfl
example : json_dumps (PyObj.list []) = "[]" := rfl
example : json_dumps (PyObj.list [PyObj.str "a", PyObj.str "b"]) = "[\"a\", \"b\"]" := rfl

/-! ## The `users` table -/

/-- Default constants from the top of `src/db.py`. -/
def DEFAULT_FREE_CREDITS : Int := 200

/-- Default plan label. -/
def DEFAULT_PLAN : String := "Free"

/-- Default account status label. -/
def DEFAULT_STATUS : String := "Free"

/-- Default plan expiry marker. -/
def DEFAULT_PLAN_EXPIRY : String := "N/A"

/-- Default redeemed-key count. -/
def DEFAULT_KEYS_REDEEMED : Int := 0

/-- The non-key columns of one row of the `users` table, as stored.
`custom_urls` is the serialized `TEXT` column; `serp_key` is the nullable
`TEXT UNIQUE` column. -/
structure UserRow where
  credits : Int
  plan : String
  status : String
  plan_expiry : String
  keys_redeemed : Int
  registered_at : String
  custom_urls : String
  serp_key : Option String
deriving DecidableEq

/-- The `users` table: association list from primary key `id` to row. -/
abbrev DB := List (Int × UserRow)

/-- `SELECT * FROM users WHERE id = ?` followed by `fetchone`. -/
def findRow (db : DB) (i : Int) : Option UserRow :=
  match db.find? (fun p => p.1 == i) with
  | some p => some p.2
  | Option.none => Option.none

/-- `UPDATE users SET ... WHERE id = ?`: rewrite every row whose id matches
(under the primary-key invariant, at most one) with `g`, keeping the rest. -/
def mapAtId (db : DB) (i : Int) (g : UserRow → UserRow) : DB :=
  db.map (fun p => if p.1 == i then (p.1, g p.2) else p)

/-- The row inserted by the create paths of `get_user` and `set_serp_key`:
all defaults, `registered_at` set to the formatted current date, and
`custom_urls` set to `json.dumps([])`. -/
def defaultRow (now : String) : UserRow :=
  { credits := DEFAULT_FREE_CREDITS, plan := DEFAULT_PLAN, status := DEFAULT_STATUS,
    plan_expiry := DEFAULT_PLAN_EXPIRY, keys_redeemed := DEFAULT_KEYS_REDEEMED,
    registered_at := now, custom_urls := json_dumps (PyObj.list []),
    serp_key := Option.none }

/-- The dict returned by `get_user`: all columns, with `custom_urls` replaced
by its normalized value (a `PyObj`, since `normalize_json_field` can return
any parsed JSON value). -/
structure UserData where
  id : Int
  credits : Int
  plan : String
  status : String
  plan_expiry : String
  keys_redeemed : Int
  registered_at : String
  custom_urls : PyObj
  serp_key : Option String

/-- `get_user` from `src/db.py` (get-or-create).  `now` is the formatted
current date.  Returns the dict handed to the caller and the table after the
call. -/
def get_user (db : DB) (user_id : Int) (now : String) : UserData × DB :=
  match findRow db user_id with
  | some r =>
    ({ id := user_id, credits := r.credits, plan := r.plan, status := r.status,
       plan_expiry := r.plan_expiry, keys_redeemed := r.keys_redeemed,
       registered_at := r.registered_at,
       custom_urls := normalize_json_field (PyObj.str r.custom_urls),
       serp_key := r.serp_key }, db)
  | Option.none =>
    ({ id := user_id, credits := DEFAULT_FREE_CREDITS, plan := DEFAULT_PLAN,
       status := DEFAULT_STATUS, plan_expiry := DEFAULT_PLAN_EXPIRY,
       keys_redeemed := DEFAULT_KEYS_REDEEMED, registered_at := now,
       custom_urls := PyObj.list [], serp_key := Option.none },
     db ++ [(user_id, defaultRow now)])

/-- One `k = v` item of the `**kwargs` of `update_user`.  The source places
no restriction on the column names a caller may pass, so every column other
than the primary key appears here (the source's `registered_at` included). -/
inductive FieldUpdate where
  | credits (v : Int)
  | plan (v : String)
  | status (v : String)
  | plan_expiry (v : String)
  | keys_redeemed (v : Int)
  | custom_urls (v : PyObj)
  | serp_key (v : Option String)
  | registered_at (v : String)

/-- Apply one `SET k = ?` item to a row.  `custom_urls` values are serialized
with `json.dumps` first, exactly as in the source. -/
def applyUpdate (r : UserRow) (f : FieldUpdate) : UserRow :=
  match f with
  | FieldUpdate.credits v => { r with credits := v }
  | FieldUpdate.plan v => { r with plan := v }
  | FieldUpdate.status v => { r with status := v }
  | FieldUpdate.plan_expiry v => { r with plan_expiry := v }
  | FieldUpdate.keys_redeemed v => { r with keys_redeemed := v }
  | FieldUpdate.custom_urls v => { r with custom_urls := json_dumps v }
  | FieldUpdate.serp_key v => { r with serp_key := v }
  | FieldUpdate.registered_at v => { r with registered_at := v }

/-- Apply all `SET` items of one `UPDATE` statement in order. -/
def applyUpdates (r : UserRow) (kwargs : List FieldUpdate) : UserRow :=
  kwargs.foldl applyUpdate r

/-- Whether the `UPDATE` of `update_user` violates the `serp_key UNIQUE`
constraint: the updated row's final `serp_key` is non-NULL and equal to that
of a row with a different id. -/
def updateConflict (db : DB) (user_id : Int) (kwargs : List FieldUpdate) : Bool :=
  db.any (fun p => p.1 == user_id &&
    (match (applyUpdates p.2 kwargs).serp_key with
     | some k => db.any (fun q => q.1 != user_id && q.2.serp_key == some k)
     | Option.none => false))

/-- The table after the `UPDATE` statement of `update_user` succeeds. -/
def updatedDB (db : DB) (user_id : Int) (kwargs : List FieldUpdate) : DB :=
  mapAtId db user_id (fun r => applyUpdates r kwargs)

/-- `update_user` from `src/db.py`.  Empty `kwargs` returns before any
storage access (flag `false`); otherwise one `UPDATE` runs (flag `true`).
A `serp_key` uniqueness violation raises (is not caught here), modelled as
`Except.error` with the SQLite message; the uncommitted transaction rolls
back, so the table named in later states is the unchanged input one. -/
def update_user (db : DB) (user_id : Int) (kwargs : List FieldUpdate) :
    Except String (Bool × DB) :=
  if kwargs.isEmpty then Except.ok (false, db)
  else if updateConflict db user_id kwargs then
    Except.error "UNIQUE constraint failed: users.serp_key"
  else Except.ok (true, updatedDB db user_id kwargs)

/-- `set_serp_key` from `src/db.py`: select the row; if absent, insert a
default row carrying the key, otherwise overwrite the row's key.  A `UNIQUE`
violation on `serp_key` is caught (its message contains `"unique"`) and
converted to `false` with the transaction rolled back. -/
def set_serp_key (db : DB) (user_id : Int) (now : String) (key : String) : Bool × DB :=
  if db.any (fun p => p.1 == user_id) then
    if db.any (fun q => q.1 != user_id && q.2.serp_key == some key) then (false, db)
    else (true, mapAtId db user_id (fun r => { r with serp_key := some key }))
  else
    if db.any (fun q => q.2.serp_key == some key) then (false, db)
    else (true, db ++ [(user_id, { defaultRow now with serp_key := some key })])

/-- `get_serp_key` from `src/db.py`: `row["serp_key"] if row and
row["serp_key"] else None` — a missing row, a NULL key and an empty-string
key all yield `None`. -/
def get_serp_key (db : DB) (user_id : Int) : Option String :=
  match findRow db user_id with
  | some r =>
    match r.serp_key with
    | some s => if s = "" then Option.none else some s
    | Option.none => Option.none
  | Option.none => Option.none

/-- `delete_serp_key` from `src/db.py`: `False` when the row is missing or
its key is falsy (NULL or empty string); otherwise set the key to NULL and
return `True`. -/
def delete_serp_key (db : DB) (user_id : Int) : Bool × DB :=
  match findRow db user_id with
  | some r =>
    match r.serp_key with
    | some s =>
      if s = "" then (false, db)
      else (true, mapAtId db user_id (fun r2 => { r2 with serp_key := Option.none }))
    | Option.none => (false, db)
  | Option.none => (false, db)

/-- `clear_serp_key` is an alias of `delete_serp_key` in the source. -/
def clear_serp_key : DB → Int → Bool × DB := delete_serp_key

/-- `serp_key_exists` from `src/db.py`.  The source branches on the Python
truthiness of `exclude_user` (`if exclude_user:`), so `None` and `0` both
take the non-excluding query. -/
def serp_key_exists (db : DB) (key : String) (exclude_user : Option Int) : Bool :=
  match exclude_user with
  | some x =>
    if x == 0 then db.any (fun q => q.2.serp_key == some key)
    else db.any (fun q => q.2.serp_key == some key && q.1 != x)
  | Option.none => db.any (fun q => q.2.serp_key == some key)

/-! ## Helper lemmas about the table model -/

theorem findRow_eq_none_iff {db : DB} {i : Int} :
    findRow db i = Option.none ↔ ∀ p ∈ db, p.1 ≠ i := by
  unfold findRow
  cases h : db.find? (fun p => p.1 == i) with
  | none =>
    simp only [true_iff]
    intro p hp hpi
    have := List.find?_eq_none.mp h p hp
    simp [hpi] at this
  | some q =>
    simp only [reduceCtorEq, false_iff, not_forall]
    have hq := List.find?_some h
    have hmem := List.mem_of_find?_eq_some h
    exact ⟨q, hmem, by simpa using hq⟩

theorem findRow_mem {db : DB} {i : Int} {r : UserRow} (h : findRow db i = some r) :
    (i, r) ∈ db := by
  unfold findRow at h
  cases hf : db.find? (fun p => p.1 == i) with
  | none => rw [hf] at h; cases h
  | some q =>
    rw [hf] at h
    have hq : q.1 = i := by simpa using List.find?_some hf
    have hmem := List.mem_of_find?_eq_some hf
    have hr : q.2 = r := by simpa using h
    have : (i, r) = q := by
      cases q; simp_all
    rw [this]; exact hmem

theorem findRow_cons_pos {p : Int × UserRow} {rest : DB} {j : Int}
    (h : (p.1 == j) = true) : findRow (p :: rest) j = some p.2 := by
  unfold findRow
  rw [List.find?_cons]
  simp only [h]

theorem findRow_cons_neg {p : Int × UserRow} {rest : DB} {j : Int}
    (h : (p.1 == j) = false) : findRow (p :: rest) j = findRow rest j := by
  unfold findRow
  rw [List.find?_cons]
  simp only [h]

theorem mapAtId_cons {p : Int × UserRow} {rest : DB} {i : Int} {g : UserRow → UserRow} :
    mapAtId (p :: rest) i g =
      (if p.1 == i then (p.1, g p.2) else p) :: mapAtId rest i g := rfl

theorem findRow_isSome_of_any {db : DB} {i : Int}
    (h : db.any (fun p => p.1 == i) = true) : ∃ r, findRow db i = some r := by
  induction db with
  | nil => cases h
  | cons p rest ih =>
    by_cases hp : (p.1 == i) = true
    · exact ⟨p.2, findRow_cons_pos hp⟩
    · have hb : (p.1 == i) = false := by simpa using hp
      have hrest : rest.any (fun p => p.1 == i) = true := by
        simpa [List.any_cons, hb] using h
      obtain ⟨r, hr⟩ := ih hrest
      exact ⟨r, (findRow_cons_neg hb).trans hr⟩

theorem mapAtId_eq_self {db : DB} {i : Int} {g : UserRow → UserRow}
    (h : ∀ p ∈ db, p.1 ≠ i) : mapAtId db i g = db := by
  induction db with
  | nil => rfl
  | cons p rest ih =>
    have hp : (p.1 == i) = false := by
      simp [h p (List.mem_cons_self p rest)]
    have hrest := ih (fun q hq => h q (List.mem_cons_of_mem p hq))
    simp only [mapAtId, List.map_cons, hp, Bool.false_eq_true, if_false]
    exact congrArg (p :: ·) hrest

theorem findRow_mapAtId_ne {db : DB} {i j : Int} {g : UserRow → UserRow} (h : j ≠ i) :
    findRow (mapAtId db i g) j = findRow db j := by
  induction db with
  | nil => rfl
  | cons p rest ih =>
    rw [mapAtId_cons]
    by_cases hp : (p.1 == i) = true
    · rw [if_pos hp]
      have hj : (p.1 == j) = false := by
        have hpi : p.1 = i := by simpa using hp
        simp [hpi, Ne.symm h]
      rw [findRow_cons_neg (by exact hj), findRow_cons_neg hj]
      exact ih
    · rw [if_neg hp]
      by_cases hj : (p.1 == j) = true
      · rw [findRow_cons_pos hj, findRow_cons_pos hj]
      · have hjb : (p.1 == j) = false := by simpa using hj
        rw [findRow_cons_neg hjb, findRow_cons_neg hjb]
        exact ih

theorem findRow_mapAtId_eq {db : DB} {i : Int} {g : UserRow → UserRow} {r : UserRow}
    (h : findRow db i = some r) :
    findRow (mapAtId db i g) i = some (g r) := by
  induction db with
  | nil => cases h
  | cons p rest ih =>
    rw [mapAtId_cons]
    by_cases hp : (p.1 == i) = true
    · rw [if_pos hp]
      have hr : p.2 = r :=
        Option.some.inj (((@findRow_cons_pos p rest i hp).symm.trans h))
      rw [findRow_cons_pos (by exact hp)]
      exact congrArg some (congrArg g hr)
    · rw [if_neg hp]
      have hb : (p.1 == i) = false := by simpa using hp
      have hrest : findRow rest i = some r := (findRow_cons_neg hb).symm.trans h
      rw [findRow_cons_neg hb]
      exact ih hrest

theorem mem_mapAtId {db : DB} {i : Int} {g : UserRow → UserRow} {q : Int × UserRow}
    (h : q ∈ mapAtId db i g) :
    (∃ p ∈ db, p.1 = i ∧ q = (i, g p.2)) ∨ (q ∈ db ∧ q.1 ≠ i) := by
  obtain ⟨p, hp, hq⟩ := List.mem_map.mp h
  by_cases hpi : p.1 = i
  · left
    refine ⟨p, hp, hpi, ?_⟩
    have hb : (p.1 == i) = true := by simp [hpi]
    rw [← hq]; simp [hb, hpi]
  · right
    have hb : (p.1 == i) = false := by simp [hpi]
    rw [if_neg (by simp [hb])] at hq
    rw [← hq]; exact ⟨hp, hpi⟩

theorem findRow_append_singleton {db : DB} {i : Int} {r : UserRow}
    (h : ∀ p ∈ db, p.1 ≠ i) : findRow (db ++ [(i, r)]) i = some r := by
  induction db with
  | nil => exact findRow_cons_pos (by simp)
  | cons p rest ih =>
    have hp : (p.1 == i) = false := by
      simp [h p (List.mem_cons_self p rest)]
    have hrest := ih (fun q hq => h q (List.mem_cons_of_mem p hq))
    exact (findRow_cons_neg hp).trans hrest

/-- Success characterization of `set_serp_key`: when no row of a *different*
id holds `key`, the call returns `true`; afterwards every row is either the
`user_id` row, which now holds `key`, or an untouched input row of a
different id; and looking up `user_id` finds a row holding `key`. -/
theorem set_serp_key_success {db : DB} {uid : Int} {now key : String}
    (h : ∀ p ∈ db, p.1 ≠ uid → p.2.serp_key ≠ some key) :
    (set_serp_key db uid now key).1 = true ∧
    (∀ q ∈ (set_serp_key db uid now key).2,
      (q.1 = uid ∧ q.2.serp_key = some key) ∨ (q.1 ≠ uid ∧ q ∈ db)) ∧
    (∃ r2, findRow (set_serp_key db uid now key).2 uid = some r2 ∧
      r2.serp_key = some key) := by
  by_cases hA : db.any (fun p => p.1 == uid) = true
  · have hconf : db.any (fun q => q.1 != uid && q.2.serp_key == some key) = false := by
      rw [List.any_eq_false]
      intro q hq
      by_cases hqu : q.1 = uid
      · simp [hqu]
      · have hk := h q hq hqu
        simp [hk]
    have hset : set_serp_key db uid now key =
        (true, mapAtId db uid (fun r => { r with serp_key := some key })) := by
      unfold set_serp_key
      rw [if_pos hA, if_neg (by simp [hconf])]
    rw [hset]
    dsimp only
    refine ⟨rfl, ?_, ?_⟩
    · intro q hq
      rcases mem_mapAtId hq with ⟨p, hp, hpi, hqe⟩ | ⟨hqmem, hqne⟩
      · left; rw [hqe]; exact ⟨rfl, rfl⟩
      · right; exact ⟨hqne, hqmem⟩
    · obtain ⟨r0, hr0⟩ := findRow_isSome_of_any hA
      exact ⟨{ r0 with serp_key := some key }, findRow_mapAtId_eq hr0, rfl⟩
  · have hall : ∀ p ∈ db, p.1 ≠ uid := by
      intro p hp
      have hfalse := List.any_eq_false.mp (Bool.eq_false_iff.mpr hA) p hp
      simpa using hfalse
    have hconf : db.any (fun q => q.2.serp_key == some key) = false := by
      rw [List.any_eq_false]
      intro q hq
      have hk := h q hq (hall q hq)
      simp [hk]
    have hset : set_serp_key db uid now key =
        (true, db ++ [(uid, { defaultRow now with serp_key := some key })]) := by
      unfold set_serp_key
      rw [if_neg hA, if_neg (by simp [hconf])]
    rw [hset]
    dsimp only
    refine ⟨rfl, ?_, ?_⟩
    · intro q hq
      rcases List.mem_append.mp hq with hq1 | hq2
      · right; exact ⟨hall q hq1, hq1⟩
      · left
        have hqe : q = (uid, { defaultRow now with serp_key := some key }) := by
          simpa using hq2
        rw [hqe]; exact ⟨rfl, rfl⟩
    · exact ⟨_, findRow_append_singleton hall, rfl⟩

/-! ## Column bookkeeping for `update_user` -/

/-- The non-primary-key columns of the `users` table. -/
inductive Col where
  | credits
  | plan
  | status
  | plan_expiry
  | keys_redeemed
  | custom_urls
  | serp_key
  | registered_at
deriving DecidableEq

/-- The column an `UPDATE` item targets. -/
def fieldCol : FieldUpdate → Col
  | FieldUpdate.credits _ => Col.credits
  | FieldUpdate.plan _ => Col.plan
  | FieldUpdate.status _ => Col.status
  | FieldUpdate.plan_expiry _ => Col.plan_expiry
  | FieldUpdate.keys_redeemed _ => Col.keys_redeemed
  | FieldUpdate.custom_urls _ => Col.custom_urls
  | FieldUpdate.serp_key _ => Col.serp_key
  | FieldUpdate.registered_at _ => Col.registered_at

/-- The value a stored row holds in a column, as a Python value. -/
def colVal (r : UserRow) : Col → PyObj
  | Col.credits => PyObj.int r.credits
  | Col.plan => PyObj.str r.plan
  | Col.status => PyObj.str r.status
  | Col.plan_expiry => PyObj.str r.plan_expiry
  | Col.keys_redeemed => PyObj.int r.keys_redeemed
  | Col.custom_urls => PyObj.str r.custom_urls
  | Col.serp_key =>
    match r.serp_key with
    | some s => PyObj.str s
    | Option.none => PyObj.none
  | Col.registered_at => PyObj.str r.registered_at

/-- The value an `UPDATE` item stores in its column (`custom_urls` values
pass through `json.dumps` first). -/
def storedVal : FieldUpdate → PyObj
  | FieldUpdate.credits v => PyObj.int v
  | FieldUpdate.plan v => PyObj.str v
  | FieldUpdate.status v => PyObj.str v
  | FieldUpdate.plan_expiry v => PyObj.str v
  | FieldUpdate.keys_redeemed v => PyObj.int v
  | FieldUpdate.custom_urls v => PyObj.str (json_dumps v)
  | FieldUpdate.serp_key v =>
    match v with
    | some s => PyObj.str s
    | Option.none => PyObj.none
  | FieldUpdate.registered_at v => PyObj.str v

/-- The columns the specification designates as mutable — every column
except `registered_at` (the primary key `id` is not expressible as a
`FieldUpdate` at all in this model). -/
def isMutableCol : Col → Bool
  | Col.registered_at => false
  | _ => true

theorem colVal_applyUpdate_ne {r : UserRow} {f : FieldUpdate} {c : Col}
    (h : c ≠ fieldCol f) : colVal (applyUpdate r f) c = colVal r c := by
  cases f <;> cases c <;> simp_all [applyUpdate, colVal, fieldCol]

theorem colVal_applyUpdate_self (r : UserRow) (f : FieldUpdate) :
    colVal (applyUpdate r f) (fieldCol f) = storedVal f := by
  cases f <;> rfl

theorem colVal_applyUpdates_not_mem {kwargs : List FieldUpdate} {c : Col} (r : UserRow)
    (h : ∀ f ∈ kwargs, fieldCol f ≠ c) :
    colVal (applyUpdates r kwargs) c = colVal r c := by
  induction kwargs generalizing r with
  | nil => rfl
  | cons g rest ih =>
    have hg : c ≠ fieldCol g := (h g (List.mem_cons_self g rest)).symm
    have hrest := fun f hf => h f (List.mem_cons_of_mem g hf)
    calc colVal (applyUpdates (applyUpdate r g) rest) c
        = colVal (applyUpdate r g) c := ih (applyUpdate r g) hrest
      _ = colVal r c := colVal_applyUpdate_ne hg

theorem colVal_applyUpdates_self {kwargs : List FieldUpdate} {f : FieldUpdate} (r : UserRow)
    (hnd : (kwargs.map fieldCol).Nodup) (hf : f ∈ kwargs) :
    colVal (applyUpdates r kwargs) (fieldCol f) = storedVal f := by
  induction kwargs generalizing r with
  | nil => cases hf
  | cons g rest ih =>
    have hndc : (fieldCol g :: rest.map fieldCol).Nodup := hnd
    have hnd2 := List.nodup_cons.mp hndc
    rcases List.mem_cons.mp hf with hfg | hmem
    · subst hfg
      have hrest : ∀ f2 ∈ rest, fieldCol f2 ≠ fieldCol f := by
        intro f2 h2 heq
        exact hnd2.1 (heq ▸ List.mem_map_of_mem fieldCol h2)
      calc colVal (applyUpdates (applyUpdate r f) rest) (fieldCol f)
          = colVal (applyUpdate r f) (fieldCol f) :=
            colVal_applyUpdates_not_mem (applyUpdate r f) hrest
        _ = storedVal f := colVal_applyUpdate_self r f
    · exact ih (applyUpdate r g) hnd2.2 hmem

theorem applyUpdate_registered_at {r : UserRow} {f : FieldUpdate}
    (h : isMutableCol (fieldCol f) = true) :
    (applyUpdate r f).registered_at = r.registered_at := by
  cases f <;> simp_all [applyUpdate, fieldCol, isMutableCol]

theorem applyUpdates_registered_at {kwargs : List FieldUpdate} (r : UserRow)
    (h : ∀ f ∈ kwargs, isMutableCol (fieldCol f) = true) :
    (applyUpdates r kwargs).registered_at = r.registered_at := by
  induction kwargs generalizing r with
  | nil => rfl
  | cons g rest ih =>
    calc (applyUpdates (applyUpdate r g) rest).registered_at
        = (applyUpdate r g).registered_at :=
          ih (applyUpdate r g) (fun f hf => h f (List.mem_cons_of_mem g hf))
      _ = r.registered_at :=
          applyUpdate_registered_at (h g (List.mem_cons_self g rest))

/-! ## Concrete rows used by witnesses and counterexamples -/

/-- A user row holding serp key `"K1"`. -/
def rowA : UserRow :=
  { credits := 200, plan := "Free", status := "Free", plan_expiry := "N/A",
    keys_redeemed := 0, registered_at := "01-01-2025", custom_urls := "[]",
    serp_key := some "K1" }

/-- A user row holding no serp key. -/
def rowB : UserRow :=
  { credits := 200, plan := "Free", status := "Free", plan_expiry := "N/A",
    keys_redeemed := 0, registered_at := "02-01-2025", custom_urls := "[]",
    serp_key := Option.none }

/-- A user row whose stored serp key is the empty string. -/
def rowE : UserRow :=
  { credits := 200, plan := "Free", status := "Free", plan_expiry := "N/A",
    keys_redeemed := 0, registered_at := "03-01-2025", custom_urls := "[]",
    serp_key := some "" }

/-! ## Claim C1 -/

/-- C1: if user A (distinct from B) currently holds key K, then
`set_serp_key B K` returns `false` — the storage uniqueness violation is
converted into a boolean, not an exception — the table (hence A's key) is
unchanged, and `serp_key_exists K` is `true`. -/
theorem C1_setKey_unique (db : DB) (A B : Int) (K now : String) (r : UserRow)
    (hAB : A ≠ B) (hmem : (A, r) ∈ db) (hkey : r.serp_key = some K) :
    set_serp_key db B now K = (false, db) ∧
    serp_key_exists db K Option.none = true := by
  constructor
  · unfold set_serp_key
    by_cases hB : db.any (fun p => p.1 == B) = true
    · have hc : db.any (fun q => q.1 != B && q.2.serp_key == some K) = true := by
        rw [List.any_eq_true]
        exact ⟨(A, r), hmem, by simp [hkey, hAB]⟩
      rw [if_pos hB, if_pos hc]
    · have hc : db.any (fun q => q.2.serp_key == some K) = true := by
        rw [List.any_eq_true]
        exact ⟨(A, r), hmem, by simp [hkey]⟩
      rw [if_neg hB, if_pos hc]
  · show db.any (fun q => q.2.serp_key == some K) = true
    rw [List.any_eq_true]
    exact ⟨(A, r), hmem, by simp [hkey]⟩

/-- C1 witness: concrete instance with A = 1 holding "K1" and B = 2. -/
theorem C1_setKey_unique_witness :
    set_serp_key [(1, rowA)] 2 "03-01-2025" "K1" = (false, [(1, rowA)]) ∧
    serp_key_exists [(1, rowA)] "K1" Option.none = true :=
  C1_setKey_unique [(1, rowA)] 1 2 "K1" "03-01-2025" rowA (by decide)
    (List.mem_singleton.mpr rfl) rfl

/-! ## Claim C2 -/

/-- C2 counterexample: `"5"` is valid JSON but not an array of strings.  The
claim says it normalizes to the empty sequence; `normalize_json_field`
instead returns the parsed integer 5, which is not a sequence at all. -/
theorem C2_normalize_cex :
    normalize_json_field (PyObj.str "5") = PyObj.int 5 ∧
    PyObj.int 5 ≠ PyObj.list [] :=
  ⟨rfl, fun h => PyObj.noConfusion h⟩

/-- C2 amended: `normalize_json_field` never raises; `None` yields the empty
sequence, a string that fails to parse as JSON yields the empty sequence,
but a string that parses yields the parsed JSON value unchanged, whatever
its shape (so valid non-array JSON text yields a non-sequence, and the JSON
text `"null"` yields Python `None`); an already-decoded sequence is returned
unchanged; any other input yields the empty sequence. -/
theorem C2_normalize_amended :
    normalize_json_field PyObj.none = PyObj.list [] ∧
    (∀ s, json_loads s = Option.none →
      normalize_json_field (PyObj.str s) = PyObj.list []) ∧
    (∀ s v, json_loads s = some v → normalize_json_field (PyObj.str s) = v) ∧
    (∀ xs, normalize_json_field (PyObj.list xs) = PyObj.list xs) ∧
    (∀ b, normalize_json_field (PyObj.bool b) = PyObj.list []) ∧
    (∀ n, normalize_json_field (PyObj.int n) = PyObj.list []) ∧
    (∀ kvs, normalize_json_field (PyObj.dict kvs) = PyObj.list []) := by
  refine ⟨rfl, ?_, ?_, fun xs => rfl, fun b => rfl, fun n => rfl, fun kvs => rfl⟩
  · intro s h
    show (match json_loads s with
          | some v => v
          | Option.none => PyObj.list []) = PyObj.list []
    rw [h]
  · intro s v h
    show (match json_loads s with
          | some v => v
          | Option.none => PyObj.list []) = v
    rw [h]

/-- C2 witness: the amended behaviour at concrete strings — unparseable text
yields `[]`, and a JSON array of strings is decoded. -/
theorem C2_normalize_amended_witness :
    normalize_json_field (PyObj.str "not json") = PyObj.list [] ∧
    normalize_json_field (PyObj.str "[\"a\", \"b\"]") =
      PyObj.list [PyObj.str "a", PyObj.str "b"] :=
  ⟨C2_normalize_amended.2.1 "not json" rfl,
   C2_normalize_amended.2.2.1 "[\"a\", \"b\"]"
     (PyObj.list [PyObj.str "a", PyObj.str "b"]) rfl⟩

/-! ## Claim C3 -/

/-- C3 counterexample: updating a non-existent user id does not fail with a
StorageError — the `UPDATE` matches zero rows and the call returns normally
(and creates nothing). -/
theorem C3_updateUser_missing_cex :
    update_user [] 1 [FieldUpdate.credits 50] = Except.ok (true, []) := rfl

/-- C3 amended: for a user id with no stored record and a non-empty field
mapping, `update_user` silently succeeds as a no-op: it raises nothing,
modifies nothing, and does not create the record. -/
theorem C3_updateUser_missing (db : DB) (i : Int) (kwargs : List FieldUpdate)
    (hne : kwargs ≠ []) (habs : findRow db i = Option.none) :
    update_user db i kwargs = Except.ok (true, db) := by
  have hall : ∀ p ∈ db, p.1 ≠ i := findRow_eq_none_iff.mp habs
  have hempty : kwargs.isEmpty = false := by
    cases kwargs with
    | nil => exact absurd rfl hne
    | cons a l => rfl
  have hconf : updateConflict db i kwargs = false := by
    unfold updateConflict
    rw [List.any_eq_false]
    intro p hp
    simp [hall p hp]
  unfold update_user
  rw [if_neg (by simp [hempty]), if_neg (by simp [hconf])]
  rw [show updatedDB db i kwargs = db from mapAtId_eq_self hall]

/-- C3 witness: concrete no-op update of a missing id against a non-empty
table. -/
theorem C3_updateUser_missing_witness :
    update_user [(2, rowB)] 1 [FieldUpdate.credits 50] =
      Except.ok (true, [(2, rowB)]) :=
  C3_updateUser_missing [(2, rowB)] 1 [FieldUpdate.credits 50] (by simp) rfl

/-! ## Claim C4 -/

/-- C4 counterexample: excluding user id 0 is ignored (`if exclude_user:` is
false for `0`), so when id 0 is the only holder of "K1" the call still
returns `true`; with a nonzero only-holder id the exclusion works. -/
theorem C4_keyExists_excludeZero_cex :
    serp_key_exists [(0, rowA)] "K1" (some 0) = true ∧
    serp_key_exists [(5, rowA)] "K1" (some 5) = false :=
  ⟨rfl, rfl⟩

/-- C4 amended: for a *nonzero* excluded id X, `serp_key_exists K (some X)`
is true iff some record with id ≠ X holds K; for X = 0 the exclusion is
silently ignored and the call behaves exactly like the unexcluded check. -/
theorem C4_keyExists_exclude (db : DB) (K : String) (X : Int) (hX : X ≠ 0) :
    (serp_key_exists db K (some X) = true ↔
      ∃ p ∈ db, p.1 ≠ X ∧ p.2.serp_key = some K) ∧
    serp_key_exists db K (some 0) = serp_key_exists db K Option.none := by
  have hb : ¬((X == 0) = true) := by simp [hX]
  have hrw : serp_key_exists db K (some X)
      = db.any (fun q => q.2.serp_key == some K && q.1 != X) := by
    show (if (X == 0) = true
          then db.any (fun q => q.2.serp_key == some K)
          else db.any (fun q => q.2.serp_key == some K && q.1 != X))
        = db.any (fun q => q.2.serp_key == some K && q.1 != X)
    rw [if_neg hb]
  constructor
  · rw [hrw]
    rw [List.any_eq_true]
    constructor
    · rintro ⟨p, hp, hcond⟩
      simp only [Bool.and_eq_true, beq_iff_eq, bne_iff_ne] at hcond
      exact ⟨p, hp, hcond.2, hcond.1⟩
    · rintro ⟨p, hp, hne, hk⟩
      exact ⟨p, hp, by simp [hne, hk]⟩
  · rfl

/-- C4 witness: a nonzero exclusion that does not cover the holder. -/
theorem C4_keyExists_exclude_witness :
    serp_key_exists [(1, rowA)] "K1" (some 5) = true :=
  (C4_keyExists_exclude [(1, rowA)] "K1" 5 (by decide)).1.mpr
    ⟨(1, rowA), List.mem_singleton.mpr rfl, by decide, rfl⟩

/-! ## Claim C5 -/

/-- C5 counterexample: `update_user` places no restriction on the supplied
column names, so an update naming `registered_at` overwrites the value set
at creation, contradicting the claim that only mutable columns are ever
modified. -/
theorem C5_registeredAt_cex :
    update_user [(1, rowB)] 1 [FieldUpdate.registered_at "31-12-1999"] =
      Except.ok (true, [(1, { rowB with registered_at := "31-12-1999" })]) ∧
    rowB.registered_at = "02-01-2025" :=
  ⟨rfl, rfl⟩

/-- C5 amended: `update_user` applies exactly the supplied column
assignments, whatever columns they name; whenever the supplied mapping is
restricted to the seven mutable columns (as the interface prescribes), every
record's id and `registered_at` survive the call unchanged — on any
non-erroring outcome, erroring calls changing nothing at all. -/
theorem updatedDB_registered_at (db : DB) (i : Int) (kwargs : List FieldUpdate)
    (hmut : ∀ f ∈ kwargs, isMutableCol (fieldCol f) = true) :
    (updatedDB db i kwargs).map (fun p => (p.1, p.2.registered_at)) =
      db.map (fun p => (p.1, p.2.registered_at)) := by
  unfold updatedDB mapAtId
  induction db with
  | nil => rfl
  | cons p rest ih =>
    simp only [List.map_cons]
    rw [List.cons.injEq]
    refine ⟨?_, ih⟩
    by_cases hpi : (p.1 == i) = true
    · rw [if_pos hpi]
      show (p.1, (applyUpdates p.2 kwargs).registered_at) = (p.1, p.2.registered_at)
      rw [applyUpdates_registered_at p.2 hmut]
    · rw [if_neg hpi]

theorem C5_updateUser_mutable_frame (db : DB) (i : Int) (kwargs : List FieldUpdate)
    (b : Bool) (db2 : DB)
    (hmut : ∀ f ∈ kwargs, isMutableCol (fieldCol f) = true)
    (hok : update_user db i kwargs = Except.ok (b, db2)) :
    db2.map (fun p => (p.1, p.2.registered_at)) =
      db.map (fun p => (p.1, p.2.registered_at)) := by
  unfold update_user at hok
  by_cases he : kwargs.isEmpty = true
  · rw [if_pos he] at hok
    have hdb : db = db2 := congrArg Prod.snd (Except.ok.inj hok)
    rw [← hdb]
  · rw [if_neg he] at hok
    by_cases hc : updateConflict db i kwargs = true
    · rw [if_pos hc] at hok
      exact Except.noConfusion hok
    · rw [if_neg hc] at hok
      have hdb2 : db2 = updatedDB db i kwargs :=
        (congrArg Prod.snd (Except.ok.inj hok)).symm
      rw [hdb2]
      exact updatedDB_registered_at db i kwargs hmut

/-- C5 witness: a credits-only update leaves ids and `registered_at`
unchanged. -/
theorem C5_updateUser_mutable_frame_witness :
    ([(1, { rowB with credits := 50 })] : DB).map (fun p => (p.1, p.2.registered_at)) =
      ([(1, rowB)] : DB).map (fun p => (p.1, p.2.registered_at)) :=
  C5_updateUser_mutable_frame [(1, rowB)] 1 [FieldUpdate.credits 50] true
    [(1, { rowB with credits := 50 })]
    (by intro f hf; rw [List.mem_singleton.mp hf]; rfl) rfl

/-! ## Claim C6 -/

/-- C6: creating a missing user id inserts and returns a record with
credits 200, plan "Free", status "Free", plan_expiry "N/A", keys_redeemed 0,
empty `custom_urls`, absent serp key, and `registered_at` set to the
supplied current date (formatted `DD-MM-YYYY` by the caller of this model);
the stored row serializes `custom_urls` as `"[]"`. -/
theorem C6_getOrCreate_defaults (db : DB) (i : Int) (now : String)
    (habs : findRow db i = Option.none) :
    get_user db i now =
      ({ id := i, credits := 200, plan := "Free", status := "Free",
         plan_expiry := "N/A", keys_redeemed := 0, registered_at := now,
         custom_urls := PyObj.list [], serp_key := Option.none },
       db ++ [(i, { credits := 200, plan := "Free", status := "Free",
                    plan_expiry := "N/A", keys_redeemed := 0,
                    registered_at := now, custom_urls := "[]",
                    serp_key := Option.none })]) := by
  unfold get_user
  rw [habs]
  rfl

/-- C6 witness: creation on the empty table at id 7. -/
theorem C6_getOrCreate_defaults_witness :
    get_user [] 7 "05-10-2026" =
      ({ id := 7, credits := 200, plan := "Free", status := "Free",
         plan_expiry := "N/A", keys_redeemed := 0, registered_at := "05-10-2026",
         custom_urls := PyObj.list [], serp_key := Option.none },
       [(7, { credits := 200, plan := "Free", status := "Free",
              plan_expiry := "N/A", keys_redeemed := 0,
              registered_at := "05-10-2026", custom_urls := "[]",
              serp_key := Option.none })]) :=
  C6_getOrCreate_defaults [] 7 "05-10-2026" rfl

/-! ## Claim C7 -/

/-- C7 counterexample: updating user 2's `serp_key` to a value held by user
1 does not "change exactly the supplied fields" — the storage uniqueness
constraint fires and `update_user`, which catches nothing, propagates the
error (a StorageError at the interface). -/
theorem C7_updateUser_conflict_cex :
    update_user [(1, rowA), (2, rowB)] 2 [FieldUpdate.serp_key (some "K1")] =
      Except.error "UNIQUE constraint failed: users.serp_key" := rfl

/-- C7 amended: for an existing record and a non-empty mapping of mutable
fields naming each column at most once, *provided no supplied `serp_key`
value is already held by a different record*, `update_user` succeeds and
changes exactly the supplied columns of exactly the target record: every
other id reads back unchanged, the target row afterwards is the supplied
updates applied to the old row — supplied columns holding the supplied
(stored) values, untouched columns their old values — and an empty mapping
is a no-op performing no storage access (flag `false`). -/
theorem C7_updateUser_frame (db : DB) (i : Int) (kwargs : List FieldUpdate)
    (r : UserRow) (hfind : findRow db i = some r) (hne : kwargs ≠ [])
    (hcols : (kwargs.map fieldCol).Nodup)
    (hsafe : updateConflict db i kwargs = false) :
    update_user db i kwargs = Except.ok (true, updatedDB db i kwargs) ∧
    (∀ j, j ≠ i → findRow (updatedDB db i kwargs) j = findRow db j) ∧
    findRow (updatedDB db i kwargs) i = some (applyUpdates r kwargs) ∧
    (∀ f ∈ kwargs, colVal (applyUpdates r kwargs) (fieldCol f) = storedVal f) ∧
    (∀ c : Col, (∀ f ∈ kwargs, fieldCol f ≠ c) →
      colVal (applyUpdates r kwargs) c = colVal r c) ∧
    update_user db i [] = Except.ok (false, db) := by
  have hempty : kwargs.isEmpty = false := by
    cases kwargs with
    | nil => exact absurd rfl hne
    | cons a l => rfl
  refine ⟨?_, ?_, ?_, ?_, ?_, rfl⟩
  · unfold update_user
    rw [if_neg (by simp [hempty]), if_neg (by simp [hsafe])]
  · intro j hj
    exact findRow_mapAtId_ne hj
  · exact findRow_mapAtId_eq hfind
  · intro f hf
    exact colVal_applyUpdates_self r hcols hf
  · intro c hc
    exact colVal_applyUpdates_not_mem r hc

/-- C7 witness: a concrete partial update of credits on an existing row. -/
theorem C7_updateUser_frame_witness :
    update_user [(1, rowB)] 1 [FieldUpdate.credits 50] =
      Except.ok (true, updatedDB [(1, rowB)] 1 [FieldUpdate.credits 50]) :=
  (C7_updateUser_frame [(1, rowB)] 1 [FieldUpdate.credits 50] rowB rfl
    (by simp) (by simp) rfl).1

/-! ## Claims C8-C10 -/

theorem get_serp_key_of_none {db : DB} {A : Int} (hf : findRow db A = Option.none) :
    get_serp_key db A = Option.none := by
  unfold get_serp_key
  rw [hf]

theorem get_serp_key_of_row {db : DB} {A : Int} {r : UserRow}
    (hf : findRow db A = some r) :
    get_serp_key db A =
      (match r.serp_key with
       | some s => if s = "" then Option.none else some s
       | Option.none => Option.none) := by
  unfold get_serp_key
  rw [hf]

theorem delete_serp_key_of_none {db : DB} {A : Int} (hf : findRow db A = Option.none) :
    delete_serp_key db A = (false, db) := by
  unfold delete_serp_key
  rw [hf]

theorem delete_serp_key_of_row {db : DB} {A : Int} {r : UserRow}
    (hf : findRow db A = some r) :
    delete_serp_key db A =
      (match r.serp_key with
       | some s =>
         if s = "" then (false, db)
         else (true, mapAtId db A (fun r2 => { r2 with serp_key := Option.none }))
       | Option.none => (false, db)) := by
  unfold delete_serp_key
  rw [hf]

/-- C8 counterexample: with K2 the empty string (distinct from K1 and held
by no other user), both `set_serp_key` calls return `true`, yet
`get_serp_key` afterwards reports the key absent instead of returning K2,
because the read interface treats a stored empty-string key as falsy. -/
theorem C8_setKey_reassign_cex :
    (set_serp_key [] 1 "01-01-2025" "K1").1 = true ∧
    (set_serp_key (set_serp_key [] 1 "01-01-2025" "K1").2 1 "02-01-2025" "").1 = true ∧
    get_serp_key
      (set_serp_key (set_serp_key [] 1 "01-01-2025" "K1").2 1 "02-01-2025" "").2 1 =
      Option.none :=
  ⟨rfl, rfl, rfl⟩

/-- C8 amended: for distinct keys K1, K2 held by no other user, with K2
non-empty, `set_serp_key A K1` then `set_serp_key A K2` both return `true`;
afterwards `get_serp_key A` is K2, `serp_key_exists K1` is `false` (the old
key is released by the overwrite) and `serp_key_exists K2` is `true`.  For
an empty K2 both calls still succeed but the read interface reports the key
absent (the empty-key lenience recorded by C10). -/
theorem C8_setKey_reassign (db : DB) (A : Int) (now1 now2 K1 K2 : String)
    (h12 : K1 ≠ K2) (hK2 : K2 ≠ "")
    (hother : ∀ p ∈ db, p.1 ≠ A →
      p.2.serp_key ≠ some K1 ∧ p.2.serp_key ≠ some K2) :
    (set_serp_key db A now1 K1).1 = true ∧
    (set_serp_key (set_serp_key db A now1 K1).2 A now2 K2).1 = true ∧
    get_serp_key (set_serp_key (set_serp_key db A now1 K1).2 A now2 K2).2 A =
      some K2 ∧
    serp_key_exists (set_serp_key (set_serp_key db A now1 K1).2 A now2 K2).2 K1
      Option.none = false ∧
    serp_key_exists (set_serp_key (set_serp_key db A now1 K1).2 A now2 K2).2 K2
      Option.none = true := by
  obtain ⟨hb1, hmem1, hfind1⟩ :=
    @set_serp_key_success db A now1 K1 (fun p hp hne => (hother p hp hne).1)
  have h2 : ∀ p ∈ (set_serp_key db A now1 K1).2, p.1 ≠ A →
      p.2.serp_key ≠ some K2 := by
    intro p hp hne
    rcases hmem1 p hp with ⟨hpA, _⟩ | ⟨hpne, hpdb⟩
    · exact absurd hpA hne
    · exact (hother p hpdb hne).2
  obtain ⟨hb2, hmem2, hfind2⟩ :=
    @set_serp_key_success (set_serp_key db A now1 K1).2 A now2 K2 h2
  refine ⟨hb1, hb2, ?_, ?_, ?_⟩
  · obtain ⟨r2, hr2, hr2k⟩ := hfind2
    rw [get_serp_key_of_row hr2, hr2k]
    show (if K2 = "" then Option.none else some K2) = some K2
    rw [if_neg hK2]
  · show (set_serp_key (set_serp_key db A now1 K1).2 A now2 K2).2.any
        (fun q => q.2.serp_key == some K1) = false
    rw [List.any_eq_false]
    intro q hq
    rcases hmem2 q hq with ⟨_, hqk⟩ | ⟨hqne, hqdb1⟩
    · simp [hqk, Ne.symm h12]
    · rcases hmem1 q hqdb1 with ⟨hqA2, _⟩ | ⟨hqne2, hqdb⟩
      · exact absurd hqA2 hqne
      · have hk1 := (hother q hqdb hqne2).1
        simp [hk1]
  · obtain ⟨r2, hr2, hr2k⟩ := hfind2
    show (set_serp_key (set_serp_key db A now1 K1).2 A now2 K2).2.any
        (fun q => q.2.serp_key == some K2) = true
    rw [List.any_eq_true]
    exact ⟨(A, r2), findRow_mem hr2, by simp [hr2k]⟩

/-- C8 witness: a fresh user 1 claims "K1" then "K2" on an empty table. -/
theorem C8_setKey_reassign_witness :
    (set_serp_key [] 1 "01-01-2025" "K1").1 = true ∧
    (set_serp_key (set_serp_key [] 1 "01-01-2025" "K1").2 1 "02-01-2025" "K2").1 = true ∧
    get_serp_key
      (set_serp_key (set_serp_key [] 1 "01-01-2025" "K1").2 1 "02-01-2025" "K2").2 1 =
      some "K2" ∧
    serp_key_exists
      (set_serp_key (set_serp_key [] 1 "01-01-2025" "K1").2 1 "02-01-2025" "K2").2 "K1"
      Option.none = false ∧
    serp_key_exists
      (set_serp_key (set_serp_key [] 1 "01-01-2025" "K1").2 1 "02-01-2025" "K2").2 "K2"
      Option.none = true :=
  C8_setKey_reassign [] 1 "01-01-2025" "02-01-2025" "K1" "K2" (by decide) (by decide)
    (fun p hp => absurd hp (List.not_mem_nil p))

theorem get_serp_key_of_key {db : DB} {A : Int} {r : UserRow} {s : String}
    (hf : findRow db A = some r) (hk : r.serp_key = some s) :
    get_serp_key db A = (if s = "" then Option.none else some s) := by
  rw [get_serp_key_of_row hf, hk]

theorem delete_serp_key_of_key {db : DB} {A : Int} {r : UserRow} {s : String}
    (hf : findRow db A = some r) (hk : r.serp_key = some s) :
    delete_serp_key db A =
      (if s = "" then (false, db)
       else (true, mapAtId db A (fun r2 => { r2 with serp_key := Option.none }))) := by
  rw [delete_serp_key_of_row hf, hk]

/-- C9: `delete_serp_key` returns `true` exactly when the user currently
holds a key (as observed at the read interface by `get_serp_key`);
afterwards `get_serp_key` reports absent; an immediately repeated call
returns `false` and leaves the table untouched (idempotence); and on a
non-existent user it returns `false` with the table unchanged — no record
is created. -/
theorem C9_clearKey_spec (db : DB) (A : Int) :
    ((delete_serp_key db A).1 = true ↔ get_serp_key db A ≠ Option.none) ∧
    get_serp_key (delete_serp_key db A).2 A = Option.none ∧
    delete_serp_key (delete_serp_key db A).2 A = (false, (delete_serp_key db A).2) ∧
    (findRow db A = Option.none → delete_serp_key db A = (false, db)) := by
  cases hf : findRow db A with
  | none =>
    have hdel := delete_serp_key_of_none hf
    have hget := get_serp_key_of_none hf
    rw [hdel]
    exact ⟨by simp [hget], hget, hdel, fun _ => rfl⟩
  | some r =>
    cases hk : r.serp_key with
    | none =>
      have hdel : delete_serp_key db A = (false, db) := by
        rw [delete_serp_key_of_row hf, hk]
      have hget : get_serp_key db A = Option.none := by
        rw [get_serp_key_of_row hf, hk]
      rw [hdel]
      exact ⟨by simp [hget], hget, hdel, fun h => Option.noConfusion h⟩
    | some s =>
      by_cases hs : s = ""
      · have hdel : delete_serp_key db A = (false, db) :=
          (delete_serp_key_of_key hf hk).trans (if_pos hs)
        have hget : get_serp_key db A = Option.none :=
          (get_serp_key_of_key hf hk).trans (if_pos hs)
        rw [hdel]
        exact ⟨by simp [hget], hget, hdel, fun h => Option.noConfusion h⟩
      · have hdel : delete_serp_key db A =
            (true, mapAtId db A (fun r2 => { r2 with serp_key := Option.none })) :=
          (delete_serp_key_of_key hf hk).trans (if_neg hs)
        have hget : get_serp_key db A = some s :=
          (get_serp_key_of_key hf hk).trans (if_neg hs)
        rw [hdel]
        refine ⟨by simp [hget], ?_, ?_, fun h => Option.noConfusion h⟩
        · show get_serp_key
              (mapAtId db A (fun r2 => { r2 with serp_key := Option.none })) A =
              Option.none
          exact get_serp_key_of_row (findRow_mapAtId_eq hf)
        · show delete_serp_key
              (mapAtId db A (fun r2 => { r2 with serp_key := Option.none })) A =
              (false, mapAtId db A (fun r2 => { r2 with serp_key := Option.none }))
          exact delete_serp_key_of_row (findRow_mapAtId_eq hf)

/-- C9 witness: clearing a non-existent user returns `false` and creates
nothing. -/
theorem C9_clearKey_spec_witness :
    delete_serp_key [] 1 = (false, []) :=
  (C9_clearKey_spec [] 1).2.2.2 rfl

/-- C10: a stored empty-string serp key is treated as absent at the read
interface — `get_serp_key` returns `None` rather than the empty string, and
`delete_serp_key` returns `false` leaving the table unmodified. -/
theorem C10_emptyKey_absent (db : DB) (A : Int) (r : UserRow)
    (hfind : findRow db A = some r) (hkey : r.serp_key = some "") :
    get_serp_key db A = Option.none ∧ delete_serp_key db A = (false, db) := by
  constructor
  · rw [get_serp_key_of_row hfind, hkey]
    rfl
  · rw [delete_serp_key_of_row hfind, hkey]
    rfl

/-- C10 witness: a row storing the empty-string key at id 3. -/
theorem C10_emptyKey_absent_witness :
    get_serp_key [(3, rowE)] 3 = Option.none ∧
    delete_serp_key [(3, rowE)] 3 = (false, [(3, rowE)]) :=
  C10_emptyKey_absent [(3, rowE)] 3 rowE rfl rfl
